import Mathlib

/-!
Verification of the website-scrapper repository: a shallow embedding of the
email-verification tracker (`email_verification.py`), the proxy rotator
(`scraper.py`), the browser-manager pool, the retrying HTTP fetch, URL
validation, the browser-escalation predicate and the per-URL orchestrator
(`ultimate_scraper_optimized.py`), together with theorems settling the
spec claims about them.
-/
namespace Scrapper

/-! ## Generic helpers -/
/-- Membership of `needle` as a contiguous substring of `hay`
(Python's `needle in hay` on strings), on character lists. -/
def containsSub (needle : List Char) : List Char → Bool
  | [] => needle.isEmpty
  | c :: rest => needle.isPrefixOf (c :: rest) || containsSub needle rest

/-- Python `needle in hay` for strings. -/
def strContains (hay needle : String) : Bool :=
  containsSub needle.data hay.data

/-- Python's `str.lower()` (ASCII case folding on the character list). -/
def pyLower (s : String) : String := String.mk (s.data.map Char.toLower)

/-- Python's `str.startswith(pre)`. -/
def pyStartsWith (s pre : String) : Bool := pre.data.isPrefixOf s.data

/-- Python's `str.strip()`: drop leading and trailing whitespace. -/
def pyStrip (s : String) : String :=
  String.mk (((s.data.dropWhile Char.isWhitespace).reverse.dropWhile
    Char.isWhitespace).reverse)

/-- Python's `str.split(sep)` for a one-character separator. -/
def pySplitOnChar (c : Char) : List Char → List (List Char)
  | [] => [[]]
  | x :: rest =>
      let r := pySplitOnChar c rest
      if x = c then [] :: r
      else
        match r with
        | h :: t => (x :: h) :: t
        | [] => [[x]]

/-- The suffix of the input after the first occurrence of `sep`
(`none` when `sep` does not occur). -/
def afterSep (sep : List Char) : List Char → Option (List Char)
  | [] => if sep.isEmpty then some [] else none
  | c :: rest =>
      if sep.isPrefixOf (c :: rest) then some ((c :: rest).drop sep.length)
      else afterSep sep rest

/-- Deduplicate a list keeping the first occurrence of each element
(the embedding of Python's `list(set(xs))`, which keeps one copy of
each distinct element; the iteration order of a Python set is
unspecified, first-occurrence order is chosen here). -/
def pyDedup : List String → List String
  | [] => []
  | x :: xs => if (pyDedup xs).contains x then pyDedup xs else x :: pyDedup xs

/-! ## EmailVerificationTracker (`email_verification.py`)

The tracker's observable state, restricted to the fields that the
verification methods read: whether the homepage was scanned, the keys of
the `pages_scanned` and `data_sources_checked` dictionaries, the set of
found emails (as a list of its elements), the cleaned flag, the optional
no-email reason, and the number of tracked failures. -/
structure EmailVerificationTracker where
  homepage_scanned : Bool
  pages_scanned : List String
  data_sources_checked : List String
  emails_found : List String
  emails_cleaned : Bool
  no_email_reason : Option String
  failures : Nat

/-- The constant `EmailVerificationTracker.REQUIRED_PAGES`. -/
def REQUIRED_PAGES : List String :=
  ["homepage", "contact", "about", "support", "help", "legal", "team", "privacy", "terms"]

/-- The constant `EmailVerificationTracker.REQUIRED_DATA_SOURCES`. -/
def REQUIRED_DATA_SOURCES : List String :=
  ["visible_text", "dom_text", "inline_javascript", "meta_tags",
   "schema_org_jsonld", "mailto_links", "contact_forms", "social_links"]

/-- The per-page check recorded by `verify_website_scan_complete`:
`homepage` is checked through the `homepage_scanned` flag, every other
page through key membership in `pages_scanned`. -/
def pageChecked (t : EmailVerificationTracker) (page : String) : Bool :=
  if page = "homepage" then t.homepage_scanned else t.pages_scanned.contains page

/-- The value `verify_website_scan_complete()['all_pages_complete']`. -/
def allPagesComplete (t : EmailVerificationTracker) : Bool :=
  REQUIRED_PAGES.all (pageChecked t)

/-- The value `verify_data_sources_complete()['all_sources_complete']`. -/
def allSourcesComplete (t : EmailVerificationTracker) : Bool :=
  REQUIRED_DATA_SOURCES.all (fun s => t.data_sources_checked.contains s)

/-- The list of values of the dict returned by `verify_results_produced`:
`emails_found`, `emails_cleaned`, `no_email_reason_provided`,
`no_steps_skipped`, in that order. -/
def resultsProduced (t : EmailVerificationTracker) : List Bool :=
  [ decide (0 < t.emails_found.length)
  , if 0 < t.emails_found.length then t.emails_cleaned else true
  , if t.emails_found.length = 0 then t.no_email_reason.isSome else true
  , decide (t.failures = 0) ]

/-- The method `get_completion_status()`. -/
def get_completion_status (t : EmailVerificationTracker) : String :=
  if allPagesComplete t && allSourcesComplete t && (resultsProduced t).all id
  then "COMPLETED: All checks completed successfully"
  else "INCOMPLETE: Some checks were not completed"

/-- A tracker state with every required page and data source recorded,
no emails found, and a no-email reason set: the state claim C1 says is
COMPLETE. -/
def trackerAllDoneNoEmails : EmailVerificationTracker :=
  { homepage_scanned := true
  , pages_scanned := ["contact", "about", "support", "help", "legal", "team", "privacy", "terms"]
  , data_sources_checked := REQUIRED_DATA_SOURCES
  , emails_found := []
  , emails_cleaned := false
  , no_email_reason := some "site publishes no email address"
  , failures := 0 }

/-- A tracker state that found emails but is missing the `contact` page
entry and the `mailto_links` data-source entry. -/
def trackerMissingContact : EmailVerificationTracker :=
  { homepage_scanned := true
  , pages_scanned := ["about", "support", "help", "legal", "team", "privacy", "terms"]
  , data_sources_checked := ["visible_text", "dom_text", "inline_javascript",
      "meta_tags", "schema_org_jsonld", "contact_forms", "social_links"]
  , emails_found := ["info@example.com"]
  , emails_cleaned := true
  , no_email_reason := none
  , failures := 0 }

/-! ## Proxy rotation (`scraper.py`)

The module-level rotator state is `_proxy_index` and `_proxy_usage_count`,
rotating over the loaded proxy list `_proxies_cache` after
`_max_uses_per_proxy = 7` uses. -/
/-- The module constant `_max_uses_per_proxy`. -/
def max_uses_per_proxy : Nat := 7

/-- The rotator's mutable module state: `_proxy_index` and
`_proxy_usage_count`. -/
structure RotState where
  index : Nat
  usage : Nat
  deriving DecidableEq, Repr

/-- The function `get_next_proxy(force_rotate)`: given the loaded proxy cache `ps`,
returns the selected proxy (`none` when the cache is empty) and the
updated rotator state.  Python reads `_proxies_cache[_proxy_index]`;
`getD` with a default mirrors that in-range access (rotation keeps the
index below the list length). -/
def get_next_proxy (ps : List String) (force_rotate : Bool) (s : RotState) :
    Option String × RotState :=
  if ps.isEmpty then (none, s)
  else
    let should_rotate := force_rotate || decide (s.usage ≥ max_uses_per_proxy)
    let s1 := if should_rotate && decide (1 < ps.length)
              then { index := (s.index + 1) % ps.length, usage := 0 }
              else s
    (some (ps.getD s1.index ""), { s1 with usage := s1.usage + 1 })

/-- The rotator state after `n` consecutive non-forced `get_next_proxy`
calls. -/
def rotIter (ps : List String) : Nat → RotState → RotState
  | 0, s => s
  | n + 1, s => rotIter ps n (get_next_proxy ps false s).2

/-! ## Browser-manager pool (`ultimate_scraper_optimized.py`)

`get_browser_manager` / `return_browser_manager` operate on the
`browser_managers` list under `browser_lock`.  Sessions are modelled by
numeric ids; `next_id` counts the `BrowserManager` instances created and
launched so far, `live` the launched-but-not-closed ones. -/
structure PoolState where
  browser_managers : List Nat
  next_id : Nat
  live : Nat
  deriving DecidableEq, Repr

/-- The method `get_browser_manager`: pop the last idle manager from the pool list
when it is non-empty (Python `list.pop()`), otherwise create and launch
a fresh `BrowserManager` — unconditionally, with no capacity check and
no waiting. -/
def get_browser_manager (s : PoolState) : Nat × PoolState :=
  match s.browser_managers.getLast? with
  | some bm => (bm, { s with browser_managers := s.browser_managers.dropLast })
  | none => (s.next_id, { s with next_id := s.next_id + 1, live := s.live + 1 })

/-- The method `return_browser_manager`: append the manager back to the pool list
when it holds fewer than `browser_pool_size` entries, otherwise close
the returned browser. -/
def return_browser_manager (browser_pool_size : Nat) (s : PoolState) (bm : Nat) :
    PoolState :=
  if s.browser_managers.length < browser_pool_size
  then { s with browser_managers := s.browser_managers ++ [bm] }
  else { s with live := s.live - 1 }

/-- One pool operation: an acquire or a release of a given session. -/
inductive PoolOp where
  | acquire : PoolOp
  | release (bm : Nat) : PoolOp
  deriving DecidableEq, Repr

def poolStep (browser_pool_size : Nat) (s : PoolState) : PoolOp → PoolState
  | .acquire => (get_browser_manager s).2
  | .release bm => return_browser_manager browser_pool_size s bm

def poolRun (browser_pool_size : Nat) (s : PoolState) (ops : List PoolOp) : PoolState :=
  ops.foldl (poolStep browser_pool_size) s

/-- The scraper's initial pool state: `browser_managers = []`, no
sessions created. -/
def initPool : PoolState := ⟨[], 0, 0⟩

/-! ## Regex scanning for the cheap-path parser

`parse_http_response` extracts emails and phones with `re.findall` on two
fixed patterns.  Both patterns are sequences of quantified character
classes, embedded as `ReItem` lists; `matchItems` performs the greedy
backtracking match of Python's `re` at one position, and `re_findall`
collects leftmost non-overlapping matches. -/
/-- One quantified character class `p{lo,hi}` (`hi = none` is unbounded). -/
structure ReItem where
  p : Char → Bool
  lo : Nat
  hi : Option Nat

/-- Length of the maximal prefix whose characters satisfy `p`. -/
def runLen (p : Char → Bool) : List Char → Nat
  | [] => 0
  | c :: rest => if p c then runLen p rest + 1 else 0

/-- Greedy backtracking over the repetition count of one class: try
consuming `j` characters, largest first, down to `lo`; `f` matches the
remaining items on the rest of the input and returns the length it
consumed. -/
def tryLens (f : List Char → Option Nat) (cs : List Char) (lo : Nat) : Nat → Option Nat
  | j =>
    if j < lo then none
    else
      match f (cs.drop j) with
      | some m => some (j + m)
      | none => if j = 0 then none else tryLens f cs lo (j - 1)
  termination_by j => j
  decreasing_by simp_all; omega

/-- Greedy match of a sequence of quantified classes at the start of the
input, returning the number of characters consumed. -/
def matchItems : List ReItem → List Char → Option Nat
  | [], _ => some 0
  | it :: rest, cs =>
      let maxRun := runLen it.p cs
      let k := match it.hi with
        | none => maxRun
        | some h => min maxRun h
      tryLens (fun cs2 => matchItems rest cs2) cs it.lo k

/-- Leftmost non-overlapping matches (`re.findall`); the fuel starts at
the input length and bounds the scan. -/
def findallAux (items : List ReItem) : Nat → List Char → List (List Char)
  | 0, _ => []
  | _ + 1, [] => []
  | fuel + 1, c :: rest =>
      match matchItems items (c :: rest) with
      | some n =>
          if n = 0 then findallAux items fuel rest
          else (c :: rest).take n :: findallAux items fuel ((c :: rest).drop n)
      | none => findallAux items fuel rest

def re_findall (items : List ReItem) (s : String) : List String :=
  (findallAux items s.data.length s.data).map fun cs => String.mk cs

/-- The class `[a-zA-Z0-9._%+-]` (the local part of the email pattern). -/
def emailLocalChar (c : Char) : Bool :=
  c.isAlphanum || c = '.' || c = '_' || c = '%' || c = '+' || c = '-'

/-- The class `[a-zA-Z0-9.-]` (the domain part of the email pattern). -/
def emailDomainChar (c : Char) : Bool :=
  c.isAlphanum || c = '.' || c = '-'

/-- The email pattern
`[a-zA-Z0-9._%+-]+@[a-zA-Z0-9.-]+\.[a-zA-Z]\x7b2,\x7d`. -/
def emailItems : List ReItem :=
  [⟨emailLocalChar, 1, none⟩, ⟨fun c => c = '@', 1, some 1⟩,
   ⟨emailDomainChar, 1, none⟩, ⟨fun c => c = '.', 1, some 1⟩,
   ⟨Char.isAlpha, 2, none⟩]

/-- The class `[-.\s]` (the optional separator of the phone pattern). -/
def phoneSep (c : Char) : Bool :=
  c = '-' || c = '.' || c = ' ' || c = '\t' || c = '\n' || c = '\r' ||
  c = '\x0b' || c = '\x0c'

/-- The phone pattern
`\+?\d\x7b1,3\x7d[-.\s]?\(?\d\x7b3\x7d\)?[-.\s]?\d\x7b3\x7d[-.\s]?\d\x7b4\x7d`. -/
def phoneItems : List ReItem :=
  [⟨fun c => c = '+', 0, some 1⟩, ⟨Char.isDigit, 1, some 3⟩, ⟨phoneSep, 0, some 1⟩,
   ⟨fun c => c = '(', 0, some 1⟩, ⟨Char.isDigit, 3, some 3⟩, ⟨fun c => c = ')', 0, some 1⟩,
   ⟨phoneSep, 0, some 1⟩, ⟨Char.isDigit, 3, some 3⟩, ⟨phoneSep, 0, some 1⟩,
   ⟨Char.isDigit, 4, some 4⟩]

/-- The email post-processing filter:
`'@' in e and '.' in e.split('@')[1]`. -/
def emailFilter (e : String) : Bool :=
  strContains e "@" &&
    strContains (String.mk ((pySplitOnChar '@' e.data).getD 1 [])) "."

/-- The email pipeline of `parse_http_response`: `re.findall`, then
`[e.lower() for e in emails if '@' in e and '.' in e.split('@')[1]]`,
then `list(set(emails))[:5]`. -/
def extract_emails_http (html : String) : List String :=
  let found := re_findall emailItems html
  let filtered := (found.filter emailFilter).map pyLower
  (pyDedup filtered).take 5

/-- The phone pipeline of `parse_http_response`: `re.findall`, then
`list(set(phones))[:5]`. -/
def extract_phones_http (html : String) : List String :=
  (pyDedup (re_findall phoneItems html)).take 5

/-- A Python value that is either a string or a list of strings (the
`emails` / `phones` fields hold a list when non-empty and the string
`"NONE"` otherwise). -/
inductive StrOrList where
  | str (s : String)
  | list (xs : List String)
  deriving DecidableEq, Repr

/-- The fields of the dict returned by `parse_http_response` that the
claims are about: `url`, `emails` and `phones` (the remaining fields —
title, social links, word count, feature flags — are independent of
these and omitted). -/
structure HttpParsed where
  url : String
  emails : StrOrList
  phones : StrOrList
  deriving DecidableEq, Repr

/-- The method `parse_http_response(url, html)` (identical in
`ultimate_scraper_optimized.py` and `ultimate_scraper.py`), restricted
to the `url`, `emails` and `phones` fields: `'emails': emails if emails
else "NONE"` and `'phones': phones if phones else "NONE"`. -/
def parse_http_response (url html : String) : HttpParsed :=
  let emails := extract_emails_http html
  let phones := extract_phones_http html
  { url := url
  , emails := if emails.isEmpty then .str "NONE" else .list emails
  , phones := if phones.isEmpty then .str "NONE" else .list phones }

/-! ## Browser-escalation predicate (`OptimizedScraper.needs_browser`) -/
/-- The `js_indicators` list checked against the lower-cased content
(kept verbatim from the source, including the upper-case
`__NEXT_DATA__` entry). -/
def js_indicators : List String :=
  ["react", "angular", "vue.js", "next.js", "__NEXT_DATA__", "ng-app", "v-app",
   "data-reactroot", "data-react-helmet"]

/-- Modelled text extraction: `BeautifulSoup(html, 'html.parser').get_text()`
is embedded as the character stream with the markup between `<` and `>`
removed. -/
def stripTagsAux : Bool → List Char → List Char
  | _, [] => []
  | true, c :: rest =>
      if c = '>' then stripTagsAux false rest else stripTagsAux true rest
  | false, c :: rest =>
      if c = '<' then stripTagsAux true rest else c :: stripTagsAux false rest

def get_text (html : String) : String := String.mk (stripTagsAux false html.data)

/-- The predicate `needs_browser(html)`: empty content escalates; then any
`js_indicators` entry contained in the lower-cased content escalates;
then extracted visible text stripped to fewer than 200 characters
escalates. -/
def needs_browser (html : String) : Bool :=
  if html = "" then true
  else if js_indicators.any (fun ind => strContains (pyLower html) ind) then true
  else decide ((pyStrip (get_text html)).length < 200)

/-! ## HTTP fetch with retry (`OptimizedScraper.try_http_scrape_with_retry`) -/
/-- What one `session.get` attempt does: a 200 response with a body, a
non-200 status, an `asyncio.TimeoutError`, or another exception. -/
inductive AttemptOutcome where
  | ok (html : String)
  | httpStatus (code : Nat)
  | timeout
  | exn (msg : String)
  deriving DecidableEq, Repr

/-- The observable outcome of `try_http_scrape_with_retry`: the returned
`(data, status)` pair plus its effects — HTTP attempts issued, backoff
sleeps (seconds, in order) and `stats['retries']` increments. -/
structure FetchTrace where
  data : Option HttpParsed
  status : String
  attempts : Nat
  sleeps : List Nat
  retries : Nat
  deriving DecidableEq, Repr

/-- The loop body of `try_http_scrape_with_retry`, with
`fuel = retry_attempts - attempt` making `for attempt in
range(retry_attempts)` structural: a 200 response either escalates
(`needs_browser`) or parses (`http_success`); a non-200 status records
`HTTP {status}` and retries without sleeping; a timeout or other
exception records the error and, before every non-final attempt, counts
a retry and sleeps `2 ** attempt` seconds; an exhausted loop reports
`http_error: {last_error}`. -/
def tryHttpLoop (url : String) (outcomes : Nat → AttemptOutcome) (retry_attempts : Nat) :
    Nat → Nat → Option String → FetchTrace
  | 0, _, last_error =>
      { data := none, status := "http_error: " ++ last_error.getD "None",
        attempts := 0, sleeps := [], retries := 0 }
  | fuel + 1, attempt, _ =>
      match outcomes attempt with
      | .ok html =>
          if needs_browser html then
            { data := none, status := "needs_browser",
              attempts := 1, sleeps := [], retries := 0 }
          else
            { data := some (parse_http_response url html), status := "http_success",
              attempts := 1, sleeps := [], retries := 0 }
      | .httpStatus code =>
          let rest := tryHttpLoop url outcomes retry_attempts fuel (attempt + 1)
            (some ("HTTP " ++ toString code))
          { rest with attempts := rest.attempts + 1 }
      | .timeout =>
          if attempt < retry_attempts - 1 then
            let rest := tryHttpLoop url outcomes retry_attempts fuel (attempt + 1)
              (some "Timeout")
            { rest with
                attempts := rest.attempts + 1
                sleeps := 2 ^ attempt :: rest.sleeps
                retries := rest.retries + 1 }
          else
            let rest := tryHttpLoop url outcomes retry_attempts fuel (attempt + 1)
              (some "Timeout")
            { rest with attempts := rest.attempts + 1 }
      | .exn msg =>
          if attempt < retry_attempts - 1 then
            let rest := tryHttpLoop url outcomes retry_attempts fuel (attempt + 1) (some msg)
            { rest with
                attempts := rest.attempts + 1
                sleeps := 2 ^ attempt :: rest.sleeps
                retries := rest.retries + 1 }
          else
            let rest := tryHttpLoop url outcomes retry_attempts fuel (attempt + 1) (some msg)
            { rest with attempts := rest.attempts + 1 }

def try_http_scrape_with_retry (url : String) (outcomes : Nat → AttemptOutcome)
    (retry_attempts : Nat) : FetchTrace :=
  tryHttpLoop url outcomes retry_attempts retry_attempts 0 none

/-- A URL whose first two attempts fail transiently and whose third
would have returned a rich page. -/
def flakyOutcomes : Nat → AttemptOutcome
  | 0 => .timeout
  | 1 => .timeout
  | _ => .ok "plain body"

/-! ## URL validation and the per-URL orchestrator
(`OptimizedScraper.validate_url`, `scrape_url`, `scrape_all`) -/
/-- The constant `OptimizedScraper.BLOCKED_DOMAINS`. -/
def BLOCKED_DOMAINS : List String :=
  ["facebook.com", "fb.com", "instagram.com", "twitter.com", "x.com",
   "linkedin.com", "youtube.com", "tiktok.com", "snapchat.com",
   "pinterest.com", "reddit.com", "tumblr.com", "whatsapp.com",
   "telegram.org", "t.me", "discord.com", "discord.gg",
   "twitch.tv", "vimeo.com", "flickr.com", "medium.com"]

/-- The predicate `is_social_media_url(url)`: any blocked domain contained as a
substring of the lower-cased URL. -/
def is_social_media_url (url : String) : Bool :=
  BLOCKED_DOMAINS.any (fun d => strContains (pyLower url) d)

/-- The method `validate_url(url)`, returning `(is_valid, error_message)`. -/
def validate_url (url : String) : Bool × String :=
  if is_social_media_url url then
    (false, "Social media URLs are not supported (use business websites only)")
  else if !(pyStartsWith url "http://" || pyStartsWith url "https://") then
    (false, "URL must start with http:// or https://")
  else if url.data.count '.' < 1 then
    (false, "Invalid URL format (missing domain)")
  else (true, "")

/-- Modelled from the spec: the host component of a URL — the text
between the `://` separator and the next `/` (the spec's
"dot-containing host" condition refers to this component; the code has
no host extraction). -/
def specHost (url : String) : String :=
  match afterSep "://".data url.data with
  | some rest => String.mk (rest.takeWhile (fun c => c ≠ '/'))
  | none => ""

/-- One URL's environment: the forced-browser flag, the per-attempt HTTP
outcomes, and what the browser path would return (`some payload` on
success, `none` when `browser_scrape_sync` returns `None`). -/
structure ScrapeEnv where
  force_browser : Bool
  outcomes : Nat → AttemptOutcome
  browser : Option String

/-- The dict returned by `scrape_url`: a skipped record with the policy
reason, the cheap-path data, the browser-path data, or a failed
record. -/
inductive ScrapeResult where
  | skipped (url reason : String)
  | http (data : Option HttpParsed)
  | browser (payload : String)
  | failed (url : String) (method : Option String)
  deriving DecidableEq, Repr

/-- The observable behaviour of one `scrape_url` call: its returned
record, the HTTP attempts issued, whether `browser_scrape_async` was
invoked, and the increments applied to the four outcome counters of
`self.stats`. -/
structure ScrapeEffects where
  result : ScrapeResult
  http_attempts : Nat
  browser_attempted : Bool
  d_skipped : Nat
  d_http_success : Nat
  d_browser_success : Nat
  d_failed : Nat
  deriving DecidableEq, Repr

/-- The method `scrape_url(session, url, ...)`: validate (→ skipped), forced
browser mode, else cheap HTTP with retry, escalating to the browser on
`needs_browser` or on HTTP failure. -/
def scrape_url (retry_attempts : Nat) (env : ScrapeEnv) (url : String) : ScrapeEffects :=
  match validate_url url with
  | (false, msg) =>
      { result := .skipped url msg, http_attempts := 0, browser_attempted := false,
        d_skipped := 1, d_http_success := 0, d_browser_success := 0, d_failed := 0 }
  | (true, _) =>
      if env.force_browser then
        match env.browser with
        | some payload =>
            { result := .browser payload, http_attempts := 0, browser_attempted := true,
              d_skipped := 0, d_http_success := 0, d_browser_success := 1, d_failed := 0 }
        | none =>
            { result := .failed url (some "browser"), http_attempts := 0,
              browser_attempted := true,
              d_skipped := 0, d_http_success := 0, d_browser_success := 0, d_failed := 1 }
      else
        let trace := try_http_scrape_with_retry url env.outcomes retry_attempts
        if trace.status = "http_success" then
          { result := .http trace.data, http_attempts := trace.attempts,
            browser_attempted := false,
            d_skipped := 0, d_http_success := 1, d_browser_success := 0, d_failed := 0 }
        else if trace.status = "needs_browser" then
          match env.browser with
          | some payload =>
              { result := .browser payload, http_attempts := trace.attempts,
                browser_attempted := true,
                d_skipped := 0, d_http_success := 0, d_browser_success := 1, d_failed := 0 }
          | none =>
              { result := .failed url (some "browser"), http_attempts := trace.attempts,
                browser_attempted := true,
                d_skipped := 0, d_http_success := 0, d_browser_success := 0, d_failed := 1 }
        else
          match env.browser with
          | some payload =>
              { result := .browser payload, http_attempts := trace.attempts,
                browser_attempted := true,
                d_skipped := 0, d_http_success := 0, d_browser_success := 1, d_failed := 0 }
          | none =>
              { result := .failed url none, http_attempts := trace.attempts,
                browser_attempted := true,
                d_skipped := 0, d_http_success := 0, d_browser_success := 0, d_failed := 1 }

/-- The four outcome counters of `self.stats` plus `total`. -/
structure Stats where
  total : Nat
  http_success : Nat
  browser_success : Nat
  failed : Nat
  skipped : Nat
  deriving DecidableEq, Repr

def applyDeltas (st : Stats) (e : ScrapeEffects) : Stats :=
  { st with
      http_success := st.http_success + e.d_http_success
      browser_success := st.browser_success + e.d_browser_success
      failed := st.failed + e.d_failed
      skipped := st.skipped + e.d_skipped }

/-- The method `scrape_all(urls)` as it acts on `self.stats`: sets
`stats['total'] = len(urls)` and runs one `scrape_url` per input URL
(the exception branch of `asyncio.gather` is outside the no-uncaught-
exception hypothesis of the claim). -/
def scrape_all (retry_attempts : Nat) (envs : String → ScrapeEnv)
    (urls : List String) : Stats :=
  urls.foldl (fun st url => applyDeltas st (scrape_url retry_attempts (envs url) url))
    { total := urls.length, http_success := 0, browser_success := 0,
      failed := 0, skipped := 0 }

/-! ## Theorems settling the claims -/

theorem pyDedup_nodup (xs : List String) : (pyDedup xs).Nodup := by
  induction xs with
  | nil => simp [pyDedup]
  | cons x xs ih =>
      simp only [pyDedup]
      split
      · exact ih
      · next h =>
          refine List.Nodup.cons (fun hmem => h ?_) ih
          exact List.elem_iff.mpr hmem

theorem pyDedup_mem {x : String} {xs : List String} (h : x ∈ pyDedup xs) : x ∈ xs := by
  induction xs with
  | nil => simp [pyDedup] at h
  | cons y ys ih =>
      simp only [pyDedup] at h
      split at h
      · exact List.mem_cons_of_mem _ (ih h)
      · rcases List.mem_cons.mp h with h | h
        · simp [h]
        · exact List.mem_cons_of_mem _ (ih h)

/-- C1, counterexample: in a state where every required page and every
required data source has a recorded entry, the found-email set is empty
and a no-email reason has been recorded, `get_completion_status` still
returns the INCOMPLETE verdict, because `verify_results_produced`
reports `emails_found = False` whenever no email was found. -/
theorem tracker_all_done_no_emails_incomplete :
    allPagesComplete trackerAllDoneNoEmails = true ∧
    allSourcesComplete trackerAllDoneNoEmails = true ∧
    trackerAllDoneNoEmails.emails_found = [] ∧
    trackerAllDoneNoEmails.no_email_reason.isSome = true ∧
    get_completion_status trackerAllDoneNoEmails =
      "INCOMPLETE: Some checks were not completed" := by
  refine ⟨by decide, by decide, rfl, rfl, ?_⟩
  decide

/-- C1, amended: `get_completion_status` returns the COMPLETE verdict
exactly when every required page and every required data source has a
recorded entry, at least one email was found, the emails were marked
cleaned, and no failures were tracked.  In particular a job that found
no email is always INCOMPLETE, even when a no-email reason was recorded. -/
theorem get_completion_status_completed_iff (t : EmailVerificationTracker) :
    get_completion_status t = "COMPLETED: All checks completed successfully" ↔
      (allPagesComplete t = true ∧ allSourcesComplete t = true ∧
       t.emails_found ≠ [] ∧ t.emails_cleaned = true ∧ t.failures = 0) := by
  have hne : ("COMPLETED: All checks completed successfully" : String) ≠
      "INCOMPLETE: Some checks were not completed" := by decide
  unfold get_completion_status
  split
  · next h =>
      simp only [Bool.and_eq_true] at h
      obtain ⟨⟨hp, hs⟩, hr⟩ := h
      simp only [resultsProduced, List.all_cons, List.all_nil, id_eq, Bool.and_eq_true,
        decide_eq_true_eq] at hr
      obtain ⟨hlen, hcl, _, hf⟩ := hr
      constructor
      · intro _
        refine ⟨hp, hs, ?_, ?_, hf.1⟩
        · intro hnil
          rw [hnil] at hlen
          simp at hlen
        · rw [if_pos hlen] at hcl
          exact hcl
      · intro _; rfl
  · next h =>
      constructor
      · intro habs; exact absurd habs hne.symm
      · rintro ⟨hp, hs, hne', hcl, hf⟩
        exfalso
        apply h
        simp only [Bool.and_eq_true]
        refine ⟨⟨hp, hs⟩, ?_⟩
        have hlen : 0 < t.emails_found.length := List.length_pos.mpr hne'
        simp [resultsProduced, hlen, Nat.pos_iff_ne_zero.mp hlen, hcl, hf]

/-- C2: whenever some required page or some required data source has no
recorded entry, `get_completion_status` returns the INCOMPLETE verdict —
regardless of the emails found (no partial credit). -/
theorem missing_entry_incomplete (t : EmailVerificationTracker)
    (h : (∃ p ∈ REQUIRED_PAGES, pageChecked t p = false) ∨
         (∃ s ∈ REQUIRED_DATA_SOURCES, t.data_sources_checked.contains s = false)) :
    get_completion_status t = "INCOMPLETE: Some checks were not completed" := by
  unfold get_completion_status
  have hfalse : (allPagesComplete t && allSourcesComplete t && (resultsProduced t).all id) = false := by
    rcases h with ⟨p, hp, hpc⟩ | ⟨s, hs, hsc⟩
    · have : allPagesComplete t = false := by
        unfold allPagesComplete
        rw [Bool.eq_false_iff]
        intro hall
        have := List.all_eq_true.mp hall p hp
        rw [hpc] at this
        exact Bool.false_ne_true this
      simp [this]
    · have : allSourcesComplete t = false := by
        unfold allSourcesComplete
        rw [Bool.eq_false_iff]
        intro hall
        have := List.all_eq_true.mp hall s hs
        rw [hsc] at this
        exact Bool.false_ne_true this
      simp [this]
  rw [hfalse]
  simp

/-- C2, witness: a state missing the `contact` page entry is INCOMPLETE
even though an email was found. -/
theorem missing_entry_incomplete_witness :
    get_completion_status trackerMissingContact =
      "INCOMPLETE: Some checks were not completed" :=
  missing_entry_incomplete trackerMissingContact
    (Or.inl ⟨"contact", by decide, by decide⟩)

theorem listGetD_eq_getElem (l : List String) (d : String) (n : Nat) (h : n < l.length) :
    l.getD n d = l[n] := by
  simp [List.getD_eq_getElem?_getD, List.getElem?_eq_getElem h]

/-- A non-forced call below the rotation threshold keeps the index and
bumps the usage count. -/
theorem get_next_proxy_step (ps : List String) (i m : Nat)
    (hm : m < max_uses_per_proxy) (hps : ¬ ps.isEmpty) :
    (get_next_proxy ps false ⟨i, m⟩).2 = ⟨i, m + 1⟩ := by
  unfold get_next_proxy
  rw [if_neg hps]
  have hdec : decide (m ≥ max_uses_per_proxy) = false := by
    simp [Nat.not_le.mpr hm]
  simp [hdec]

theorem rotIter_steady (ps : List String) (hps : ¬ ps.isEmpty) (i : Nat) :
    ∀ k u, u + k ≤ max_uses_per_proxy → rotIter ps k ⟨i, u⟩ = ⟨i, u + k⟩ := by
  intro k
  induction k with
  | zero => intro u _; rfl
  | succ n ih =>
      intro u hu
      have hu' : u < max_uses_per_proxy := by omega
      have h1 : rotIter ps (n + 1) ⟨i, u⟩ =
          rotIter ps n (get_next_proxy ps false ⟨i, u⟩).2 := rfl
      rw [h1, get_next_proxy_step ps i u hu' hps, ih (u + 1) (by omega)]
      congr 1
      omega

/-- A non-forced call below the rotation threshold returns the current
endpoint. -/
theorem get_next_proxy_ret (ps : List String) (i m : Nat)
    (hm : m < max_uses_per_proxy) (hps : ¬ ps.isEmpty) :
    (get_next_proxy ps false ⟨i, m⟩).1 = some (ps.getD i "") := by
  unfold get_next_proxy
  rw [if_neg hps]
  have hdec : decide (m ≥ max_uses_per_proxy) = false := by
    simp [Nat.not_le.mpr hm]
  simp [hdec]

/-- C6: on a proxy list with at least two distinct endpoints, a
non-forced `get_next_proxy` call whose usage count is below
`max_uses_per_proxy` returns the current endpoint and bumps the count;
after exactly `max_uses_per_proxy` consecutive non-forced calls from a
fresh counter, the next call advances (wrapping) to an endpoint
different from the one returned by those calls; and a forced call
always advances, regardless of the count. -/
theorem get_next_proxy_rotation (ps : List String) (i u : Nat)
    (h2 : 2 ≤ ps.length) (hnd : ps.Nodup) (hi : i < ps.length) :
    (u < max_uses_per_proxy →
      (get_next_proxy ps false ⟨i, u⟩).1 = some (ps.getD i "") ∧
      (get_next_proxy ps false ⟨i, u⟩).2 = ⟨i, u + 1⟩) ∧
    rotIter ps max_uses_per_proxy ⟨i, 0⟩ = ⟨i, max_uses_per_proxy⟩ ∧
    ((get_next_proxy ps false ⟨i, max_uses_per_proxy⟩).1 =
        some (ps.getD ((i + 1) % ps.length) "") ∧
      ps.getD ((i + 1) % ps.length) "" ≠ ps.getD i "") ∧
    (∀ u', (get_next_proxy ps true ⟨i, u'⟩).1 =
        some (ps.getD ((i + 1) % ps.length) "") ∧
      (get_next_proxy ps true ⟨i, u'⟩).2 = ⟨(i + 1) % ps.length, 1⟩) := by
  have hne : ps ≠ [] := by
    intro h; rw [h] at h2; simp at h2
  have hps : ¬ ps.isEmpty := by
    simpa [List.isEmpty_iff] using hne
  have h1 : 1 < ps.length := by omega
  have hj : (i + 1) % ps.length < ps.length := Nat.mod_lt _ (by omega)
  have hij : (i + 1) % ps.length ≠ i := by
    rcases Nat.lt_or_ge (i + 1) ps.length with h | h
    · rw [Nat.mod_eq_of_lt h]; omega
    · have hlen : i + 1 = ps.length := by omega
      rw [hlen, Nat.mod_self]
      omega
  refine ⟨fun hu => ⟨get_next_proxy_ret ps i u hu hps, get_next_proxy_step ps i u hu hps⟩,
    ?_, ⟨?_, ?_⟩, ?_⟩
  · simpa using rotIter_steady ps hps i max_uses_per_proxy 0 (by omega)
  · unfold get_next_proxy
    rw [if_neg hps]
    simp [h1]
  · rw [listGetD_eq_getElem ps "" _ hj, listGetD_eq_getElem ps "" i hi]
    intro heq
    exact hij ((List.Nodup.getElem_inj_iff hnd).mp heq)
  · intro u'
    unfold get_next_proxy
    rw [if_neg hps]
    simp [h1]

/-- C6, witness: on the two-endpoint list, the call after seven
non-forced uses returns the other endpoint. -/
theorem get_next_proxy_rotation_witness :
    (get_next_proxy ["alpha", "beta"] false ⟨0, max_uses_per_proxy⟩).1 = some "beta" := by
  have h := get_next_proxy_rotation ["alpha", "beta"] 0 0 (by decide) (by decide) (by decide)
  simpa using h.2.2.1.1

/-- C7, counterexample: after seven consecutive non-forced calls from a
fresh counter on a two-endpoint list, the observable rotator state has
`usage = 7`, violating the claimed strict invariant
`usesSinceRotation < maxUsesPerProxy`. -/
theorem proxy_usage_strict_invariant_counterexample :
    (rotIter ["alpha", "beta"] max_uses_per_proxy ⟨0, 0⟩).usage = max_uses_per_proxy ∧
    ¬ ((rotIter ["alpha", "beta"] max_uses_per_proxy ⟨0, 0⟩).usage < max_uses_per_proxy) := by
  decide

/-- C7, amended: on a proxy list with at least two endpoints, the
non-strict invariant `usesSinceRotation ≤ maxUsesPerProxy` holds in
every state observable between `get_next_proxy` calls: every call,
forced or not, re-establishes it before returning (the strict bound is
reached, transiently observable, exactly when the count hits the
threshold, and the next call resets it). -/
theorem get_next_proxy_usage_le (ps : List String) (force : Bool) (s : RotState)
    (h2 : 2 ≤ ps.length) (h : s.usage ≤ max_uses_per_proxy) :
    ((get_next_proxy ps force s).2).usage ≤ max_uses_per_proxy := by
  have hne : ps ≠ [] := by
    intro hnil; rw [hnil] at h2; simp at h2
  have hps : ¬ ps.isEmpty := by
    simpa [List.isEmpty_iff] using hne
  have h1 : 1 < ps.length := by omega
  rcases Nat.lt_or_ge s.usage max_uses_per_proxy with hu | hu
  · cases force with
    | false =>
        have hdec : decide (s.usage ≥ max_uses_per_proxy) = false := by
          simp [Nat.not_le.mpr hu]
        simp only [get_next_proxy, if_neg hps, hdec, Bool.or_false, Bool.false_and,
          Bool.false_or, Bool.and_self, if_neg]
        simp [hdec]
        omega
    | true =>
        simp [get_next_proxy, if_neg hps, h1, hne, max_uses_per_proxy]
  · have hdec : decide (s.usage ≥ max_uses_per_proxy) = true := by
      simpa using hu
    have hu7 : 7 ≤ s.usage := hu
    simp [get_next_proxy, if_neg hps, hdec, h1, hne, max_uses_per_proxy, hu7]

/-- C7, witness: a call at the transient bound resets the count below
the threshold. -/
theorem get_next_proxy_usage_le_witness :
    2 ≤ (["alpha", "beta"] : List String).length ∧
    ((get_next_proxy ["alpha", "beta"] false ⟨0, max_uses_per_proxy⟩).2).usage ≤
      max_uses_per_proxy :=
  ⟨by decide, get_next_proxy_usage_le ["alpha", "beta"] false ⟨0, max_uses_per_proxy⟩
    (by decide) (by decide)⟩

/-- C3, counterexample: with `browser_pool_size = 1`, two consecutive
acquires from the initial state both create and launch a session — the
second acquire does not wait for a return — so two sessions are live at
once, exceeding the configured capacity. -/
theorem pool_overdraw_counterexample :
    (poolRun 1 initPool [.acquire, .acquire]).live = 2 ∧
    1 < (poolRun 1 initPool [.acquire, .acquire]).live ∧
    (poolRun 1 initPool [.acquire, .acquire]).next_id = 2 := by
  decide

/-- C3, amended: an acquire never waits — it creates and launches a new
session exactly when the idle pool list is empty, and otherwise pops the
most recently returned session; a release returns the session to the
pool only when the pool holds fewer than `browser_pool_size` sessions
and closes it otherwise; consequently the idle pool (not the number of
live sessions) never exceeds `browser_pool_size` on any operation
sequence from the initial state. -/
theorem browser_pool_behavior (browser_pool_size : Nat) :
    (∀ s : PoolState,
      (s.browser_managers = [] →
        (get_browser_manager s).1 = s.next_id ∧
        (get_browser_manager s).2 =
          { s with next_id := s.next_id + 1, live := s.live + 1 }) ∧
      (∀ bm rest, s.browser_managers = rest ++ [bm] →
        (get_browser_manager s).1 = bm ∧
        (get_browser_manager s).2 = { s with browser_managers := rest })) ∧
    (∀ (s : PoolState) (bm : Nat),
      (s.browser_managers.length < browser_pool_size →
        return_browser_manager browser_pool_size s bm =
          { s with browser_managers := s.browser_managers ++ [bm] }) ∧
      (¬ s.browser_managers.length < browser_pool_size →
        return_browser_manager browser_pool_size s bm = { s with live := s.live - 1 })) ∧
    (∀ ops : List PoolOp,
      (poolRun browser_pool_size initPool ops).browser_managers.length ≤
        browser_pool_size) := by
  refine ⟨fun s => ⟨fun hnil => ?_, fun bm rest hcat => ?_⟩,
    fun s bm => ⟨fun hlt => ?_, fun hge => ?_⟩, fun ops => ?_⟩
  · unfold get_browser_manager
    rw [hnil]
    simp
  · unfold get_browser_manager
    rw [hcat]
    simp [List.getLast?_concat, List.dropLast_concat]
  · unfold return_browser_manager
    rw [if_pos hlt]
  · unfold return_browser_manager
    rw [if_neg hge]
  · have step_bound : ∀ (s : PoolState) (op : PoolOp),
        s.browser_managers.length ≤ browser_pool_size →
        (poolStep browser_pool_size s op).browser_managers.length ≤ browser_pool_size := by
      intro s op hs
      cases op with
      | acquire =>
          unfold poolStep get_browser_manager
          cases hlast : s.browser_managers.getLast? with
          | none => simpa using hs
          | some bm =>
              simp only []
              calc s.browser_managers.dropLast.length
                  ≤ s.browser_managers.length := by
                    rw [List.length_dropLast]; omega
                _ ≤ browser_pool_size := hs
      | release bm =>
          show (return_browser_manager browser_pool_size s bm).browser_managers.length ≤
            browser_pool_size
          unfold return_browser_manager
          by_cases hlt : s.browser_managers.length < browser_pool_size
          · rw [if_pos hlt]
            simpa using hlt
          · rw [if_neg hlt]
            simpa using hs
    have run_bound : ∀ (ops : List PoolOp) (s : PoolState),
        s.browser_managers.length ≤ browser_pool_size →
        (poolRun browser_pool_size s ops).browser_managers.length ≤ browser_pool_size := by
      intro ops
      induction ops with
      | nil => intro s hs; exact hs
      | cons op rest ih =>
          intro s hs
          exact ih (poolStep browser_pool_size s op) (step_bound s op hs)
    exact run_bound ops initPool (by simp [initPool])

/-- C3, witness: an acquire on an empty pool creates session `4` and
increments the created and live counts. -/
theorem browser_pool_behavior_witness :
    (get_browser_manager ⟨[], 4, 2⟩).1 = 4 ∧
    (get_browser_manager ⟨[], 4, 2⟩).2 = (⟨[], 5, 3⟩ : PoolState) :=
  ((browser_pool_behavior 3).1 ⟨[], 4, 2⟩).1 rfl

theorem dedup_take_nodup (l : List String) : ((pyDedup l).take 5).Nodup :=
  (List.take_sublist 5 (pyDedup l)).nodup (pyDedup_nodup l)

theorem dedup_take_mem {x : String} {l : List String}
    (h : x ∈ (pyDedup l).take 5) : x ∈ l :=
  pyDedup_mem ((List.take_subset 5 (pyDedup l)) h)

/-- C10: the `emails` field of the cheap-path parse is either the string
sentinel `"NONE"` or a non-empty list of at most five deduplicated
lower-cased addresses, and the `phones` field is either `"NONE"` or a
non-empty list of at most five deduplicated entries; the empty list is
never returned in either field. -/
theorem parse_http_response_sentinel (url html : String) :
    ((parse_http_response url html).emails = .str "NONE" ∨
      ∃ xs, (parse_http_response url html).emails = .list xs ∧ xs ≠ [] ∧
        xs.length ≤ 5 ∧ xs.Nodup ∧ ∀ e ∈ xs, ∃ y, e = pyLower y) ∧
    ((parse_http_response url html).phones = .str "NONE" ∨
      ∃ xs, (parse_http_response url html).phones = .list xs ∧ xs ≠ [] ∧
        xs.length ≤ 5 ∧ xs.Nodup) := by
  have hgen : ∀ l : List String, ((pyDedup l).take 5).length ≤ 5 := by
    intro l
    rw [List.length_take]
    omega
  have heq : extract_emails_http html =
      (pyDedup (((re_findall emailItems html).filter emailFilter).map pyLower)).take 5 :=
    rfl
  have hpq : extract_phones_http html =
      (pyDedup (re_findall phoneItems html)).take 5 := rfl
  constructor
  · by_cases he : (extract_emails_http html).isEmpty
    · left
      simp [parse_http_response, he]
    · right
      refine ⟨extract_emails_http html, by simp [parse_http_response, he], ?_, ?_, ?_, ?_⟩
      · intro hnil
        exact he (by simp [hnil])
      · rw [heq]
        exact hgen _
      · rw [heq]
        exact dedup_take_nodup _
      · intro e hmem
        rw [heq] at hmem
        rcases List.mem_map.mp (dedup_take_mem hmem) with ⟨y, _, hy⟩
        exact ⟨y, hy.symm⟩
  · by_cases hp : (extract_phones_http html).isEmpty
    · left
      simp [parse_http_response, hp]
    · right
      refine ⟨extract_phones_http html, by simp [parse_http_response, hp], ?_, ?_, ?_⟩
      · intro hnil
        exact hp (by simp [hnil])
      · rw [hpq]
        exact hgen _
      · rw [hpq]
        exact dedup_take_nodup _

theorem tryHttpLoop_attempts_le (url : String) (outcomes : Nat → AttemptOutcome)
    (n : Nat) : ∀ (fuel attempt : Nat) (le : Option String),
    (tryHttpLoop url outcomes n fuel attempt le).attempts ≤ fuel := by
  intro fuel
  induction fuel with
  | zero => intro attempt le; simp [tryHttpLoop]
  | succ f ih =>
      intro attempt le
      cases h : outcomes attempt with
      | ok html =>
          simp only [tryHttpLoop, h]
          split <;> simp
      | httpStatus code =>
          simp only [tryHttpLoop, h]
          exact Nat.succ_le_succ (ih _ _)
      | timeout =>
          simp only [tryHttpLoop, h]
          split <;> exact Nat.succ_le_succ (ih _ _)
      | exn msg =>
          simp only [tryHttpLoop, h]
          split <;> exact Nat.succ_le_succ (ih _ _)

theorem tryHttpLoop_congr (url : String) (n : Nat)
    (oc1 oc2 : Nat → AttemptOutcome) : ∀ (fuel attempt : Nat) (le : Option String),
    (∀ i, attempt ≤ i → i < attempt + fuel → oc1 i = oc2 i) →
    tryHttpLoop url oc1 n fuel attempt le = tryHttpLoop url oc2 n fuel attempt le := by
  intro fuel
  induction fuel with
  | zero => intro attempt le _; rfl
  | succ f ih =>
      intro attempt le hagree
      have h0 : oc1 attempt = oc2 attempt :=
        hagree attempt (Nat.le_refl _) (by omega)
      have hrec : ∀ le', tryHttpLoop url oc1 n f (attempt + 1) le' =
          tryHttpLoop url oc2 n f (attempt + 1) le' := by
        intro le'
        exact ih (attempt + 1) le' (fun i hi1 hi2 => hagree i (by omega) (by omega))
      cases h : oc2 attempt with
      | ok html =>
          have h1 : oc1 attempt = .ok html := h0.trans h
          simp only [tryHttpLoop, h, h1]
      | httpStatus code =>
          have h1 : oc1 attempt = .httpStatus code := h0.trans h
          simp only [tryHttpLoop, h, h1, hrec]
      | timeout =>
          have h1 : oc1 attempt = .timeout := h0.trans h
          simp only [tryHttpLoop, h, h1, hrec]
      | exn msg =>
          have h1 : oc1 attempt = .exn msg := h0.trans h
          simp only [tryHttpLoop, h, h1, hrec]

/-- C4: the cheap-fetch path issues at most `retry_attempts` HTTP
attempts; with `retry_attempts = 2` and transiently failing first two
attempts it issues exactly 2, sleeps `2 ^ 0` seconds after the first
(the only non-final) failure, returns no data with an `http_error`
status, and never consults a third attempt — the result is the same for
any outcomes that agree on attempts 0 and 1, including ones whose third
attempt would succeed. -/
theorem retry_budget_two_attempts (url : String) (outcomes : Nat → AttemptOutcome)
    (h0 : outcomes 0 = .timeout ∨ ∃ m, outcomes 0 = .exn m)
    (h1 : outcomes 1 = .timeout ∨ ∃ m, outcomes 1 = .exn m) :
    (∀ (oc : Nat → AttemptOutcome) (n : Nat),
        (try_http_scrape_with_retry url oc n).attempts ≤ n) ∧
    (try_http_scrape_with_retry url outcomes 2).attempts = 2 ∧
    (try_http_scrape_with_retry url outcomes 2).data = none ∧
    (∃ e, (try_http_scrape_with_retry url outcomes 2).status = "http_error: " ++ e) ∧
    (try_http_scrape_with_retry url outcomes 2).sleeps = [2 ^ 0] ∧
    (∀ oc' : Nat → AttemptOutcome, (∀ i, i < 2 → oc' i = outcomes i) →
        try_http_scrape_with_retry url oc' 2 = try_http_scrape_with_retry url outcomes 2) := by
  refine ⟨fun oc n => tryHttpLoop_attempts_le url oc n n 0 none, ?_, ?_, ?_, ?_, ?_⟩
  case _ =>
    rcases h0 with h0 | ⟨m0, h0⟩ <;> rcases h1 with h1 | ⟨m1, h1⟩ <;>
      simp [try_http_scrape_with_retry, tryHttpLoop, h0, h1]
  case _ =>
    rcases h0 with h0 | ⟨m0, h0⟩ <;> rcases h1 with h1 | ⟨m1, h1⟩ <;>
      simp [try_http_scrape_with_retry, tryHttpLoop, h0, h1]
  case _ =>
    rcases h0 with h0 | ⟨m0, h0⟩ <;> rcases h1 with h1 | ⟨m1, h1⟩
    · exact ⟨"Timeout", by simp [try_http_scrape_with_retry, tryHttpLoop, h0, h1]⟩
    · exact ⟨m1, by simp [try_http_scrape_with_retry, tryHttpLoop, h0, h1]⟩
    · exact ⟨"Timeout", by simp [try_http_scrape_with_retry, tryHttpLoop, h0, h1]⟩
    · exact ⟨m1, by simp [try_http_scrape_with_retry, tryHttpLoop, h0, h1]⟩
  case _ =>
    rcases h0 with h0 | ⟨m0, h0⟩ <;> rcases h1 with h1 | ⟨m1, h1⟩ <;>
      simp [try_http_scrape_with_retry, tryHttpLoop, h0, h1]
  case _ =>
    intro oc' hagree
    exact tryHttpLoop_congr url 2 oc' outcomes 2 0 none
      (fun i _ hi => hagree i (by omega))

/-- C4, witness: with `retry_attempts = 2` the flaky fetch stops after
two attempts with no data, even though its third attempt would return
a page. -/
theorem retry_budget_two_attempts_witness :
    (try_http_scrape_with_retry "http://a.example" flakyOutcomes 2).attempts = 2 ∧
    (try_http_scrape_with_retry "http://a.example" flakyOutcomes 2).data = none ∧
    flakyOutcomes 2 = .ok "plain body" := by
  have h := retry_budget_two_attempts "http://a.example" flakyOutcomes
    (Or.inl rfl) (Or.inl rfl)
  exact ⟨h.2.1, h.2.2.1, rfl⟩

/-- C5, counterexample: `http://localhost/index.html` has a host with no
dot — per the claim it must be Skipped — yet `validate_url` accepts it,
because the code counts dots in the whole URL string and the path
supplies one, and `scrape_url` proceeds to fetch instead of skipping. -/
theorem validate_url_host_dot_counterexample :
    specHost "http://localhost/index.html" = "localhost" ∧
    strContains (specHost "http://localhost/index.html") "." = false ∧
    validate_url "http://localhost/index.html" = (true, "") ∧
    (scrape_url 2 ⟨false, fun _ => .timeout, none⟩ "http://localhost/index.html").result =
      .failed "http://localhost/index.html" none ∧
    (scrape_url 2 ⟨false, fun _ => .timeout, none⟩ "http://localhost/index.html").d_skipped
      = 0 := by
  refine ⟨by decide, by decide, by decide, by decide, by decide⟩

/-- C5, amended: `validate_url` rejects exactly the URLs that match the
social-media denylist, lack an http(s) scheme, or contain no dot
anywhere in the whole URL string (the code counts dots in the URL, not
in its host); every rejected URL is returned by `scrape_url` as Skipped
with the policy reason string, with no HTTP attempt, no browser attempt
and only the skipped counter incremented; all other URLs pass
validation. -/
theorem validate_url_policy (url : String) (retry_attempts : Nat) (env : ScrapeEnv) :
    ((validate_url url).1 = false ↔
      (is_social_media_url url = true ∨
       (pyStartsWith url "http://" || pyStartsWith url "https://") = false ∨
       url.data.count '.' < 1)) ∧
    ((validate_url url).1 = false →
      (scrape_url retry_attempts env url).result = .skipped url (validate_url url).2 ∧
      (scrape_url retry_attempts env url).http_attempts = 0 ∧
      (scrape_url retry_attempts env url).browser_attempted = false ∧
      (scrape_url retry_attempts env url).d_skipped = 1) := by
  constructor
  · by_cases h1 : is_social_media_url url = true <;>
    by_cases h2 : (pyStartsWith url "http://" || pyStartsWith url "https://") = true <;>
    by_cases h3 : url.data.count '.' < 1 <;>
      simp [validate_url, h1, h2, h3]
  · intro h
    have hv : validate_url url = (false, (validate_url url).2) := by
      rw [← h]
    unfold scrape_url
    rw [hv]
    exact ⟨rfl, rfl, rfl, rfl⟩

/-- C5, witness: a denylisted URL is skipped with the policy reason. -/
theorem validate_url_policy_witness :
    (validate_url "https://twitter.com/someuser").1 = false ∧
    (scrape_url 2 ⟨false, fun _ => .timeout, none⟩ "https://twitter.com/someuser").result =
      .skipped "https://twitter.com/someuser"
        "Social media URLs are not supported (use business websites only)" := by
  have h := (validate_url_policy "https://twitter.com/someuser" 2
    ⟨false, fun _ => .timeout, none⟩).2 (by decide)
  exact ⟨by decide, h.1.trans (by decide)⟩

/-- C8: `needs_browser` holds exactly when a framework marker occurs in
the lower-cased content or the extracted visible text, stripped, is
shorter than 200 characters (empty content falls under the length arm);
and after a successful cheap fetch (first attempt returns HTTP 200 with
the content) the non-forced orchestrator takes the browser path exactly
when `needs_browser` holds on that content. -/
theorem needs_browser_escalation (html : String) (env : ScrapeEnv) (url : String)
    (retry_attempts : Nat) (hretry : 0 < retry_attempts)
    (hforce : env.force_browser = false)
    (hvalid : (validate_url url).1 = true)
    (hok : env.outcomes 0 = .ok html) :
    (needs_browser html = true ↔
      (js_indicators.any (fun ind => strContains (pyLower html) ind) = true ∨
       (pyStrip (get_text html)).length < 200)) ∧
    (scrape_url retry_attempts env url).browser_attempted = needs_browser html := by
  constructor
  · by_cases he : html = ""
    · subst he
      constructor
      · intro _
        right
        decide
      · intro _
        decide
    · by_cases hind : js_indicators.any (fun ind => strContains (pyLower html) ind) = true
      · simp [needs_browser, he, hind]
      · simp [needs_browser, he, hind]
  · obtain ⟨m, rfl⟩ : ∃ m, retry_attempts = m + 1 := ⟨retry_attempts - 1, by omega⟩
    have hv : validate_url url = (true, (validate_url url).2) := by
      rw [← hvalid]
    by_cases hnb : needs_browser html = true
    · have htrace : try_http_scrape_with_retry url env.outcomes (m + 1) =
          ⟨none, "needs_browser", 1, [], 0⟩ := by
        simp [try_http_scrape_with_retry, tryHttpLoop, hok, hnb]
      unfold scrape_url
      rw [hv]
      simp only [hforce, Bool.false_eq_true, if_false, htrace]
      rw [hnb]
      cases env.browser <;> simp
    · have htrace : try_http_scrape_with_retry url env.outcomes (m + 1) =
          ⟨some (parse_http_response url html), "http_success", 1, [], 0⟩ := by
        simp [try_http_scrape_with_retry, tryHttpLoop, hok, hnb]
      unfold scrape_url
      rw [hv]
      simp only [hforce, Bool.false_eq_true, if_false, htrace]
      rw [Bool.eq_false_iff.mpr hnb]
      simp

/-- C8, witness: a thin 200 response escalates to the browser path. -/
theorem needs_browser_escalation_witness :
    needs_browser "tiny" = true ∧
    (scrape_url 2 ⟨false, fun _ => .ok "tiny", none⟩ "http://ok.example").browser_attempted
      = true := by
  have h := needs_browser_escalation "tiny" ⟨false, fun _ => .ok "tiny", none⟩
    "http://ok.example" 2 (by decide) rfl (by decide) rfl
  refine ⟨by decide, ?_⟩
  rw [h.2]
  decide

/-- C9: every `scrape_url` call increments exactly one of the four
outcome counters, and `scrape_all` on any URL list (absent task
exceptions) yields statistics that partition the input:
`skipped + http_success + browser_success + failed = total = #urls`. -/
theorem stats_partition (retry_attempts : Nat) (envs : String → ScrapeEnv)
    (urls : List String) :
    (∀ (env : ScrapeEnv) (url : String),
      (scrape_url retry_attempts env url).d_skipped +
      (scrape_url retry_attempts env url).d_http_success +
      (scrape_url retry_attempts env url).d_browser_success +
      (scrape_url retry_attempts env url).d_failed = 1) ∧
    (scrape_all retry_attempts envs urls).skipped +
      (scrape_all retry_attempts envs urls).http_success +
      (scrape_all retry_attempts envs urls).browser_success +
      (scrape_all retry_attempts envs urls).failed =
      (scrape_all retry_attempts envs urls).total ∧
    (scrape_all retry_attempts envs urls).total = urls.length := by
  have honce : ∀ (env : ScrapeEnv) (url : String),
      (scrape_url retry_attempts env url).d_skipped +
      (scrape_url retry_attempts env url).d_http_success +
      (scrape_url retry_attempts env url).d_browser_success +
      (scrape_url retry_attempts env url).d_failed = 1 := by
    intro env url
    unfold scrape_url
    rcases validate_url url with ⟨b, msg⟩
    cases b
    · rfl
    · simp only []
      by_cases hf : env.force_browser = true
      · rw [if_pos hf]
        cases env.browser <;> rfl
      · rw [if_neg hf]
        by_cases hs : (try_http_scrape_with_retry url env.outcomes retry_attempts).status =
            "http_success"
        · simp [hs]
        · by_cases hb : (try_http_scrape_with_retry url env.outcomes retry_attempts).status =
              "needs_browser"
          · simp [hs, hb]
            cases env.browser <;> rfl
          · simp [hs, hb]
            cases env.browser <;> rfl
  have hfold : ∀ (us : List String) (st : Stats),
      (us.foldl (fun st url => applyDeltas st (scrape_url retry_attempts (envs url) url))
        st).skipped +
      (us.foldl (fun st url => applyDeltas st (scrape_url retry_attempts (envs url) url))
        st).http_success +
      (us.foldl (fun st url => applyDeltas st (scrape_url retry_attempts (envs url) url))
        st).browser_success +
      (us.foldl (fun st url => applyDeltas st (scrape_url retry_attempts (envs url) url))
        st).failed =
      st.skipped + st.http_success + st.browser_success + st.failed + us.length := by
    intro us
    induction us with
    | nil => intro st; simp
    | cons u rest ih =>
        intro st
        rw [List.foldl_cons, ih]
        have hstep := honce (envs u) u
        simp only [applyDeltas, List.length_cons]
        omega
  have htotal : ∀ (us : List String) (st : Stats),
      (us.foldl (fun st url => applyDeltas st (scrape_url retry_attempts (envs url) url))
        st).total = st.total := by
    intro us
    induction us with
    | nil => intro st; rfl
    | cons u rest ih =>
        intro st
        rw [List.foldl_cons, ih]
        simp [applyDeltas]
  refine ⟨honce, ?_, ?_⟩
  · rw [scrape_all, hfold, htotal]
    simp
  · rw [scrape_all, htotal]

end Scrapper
